import Mathlib

/-!
Shallow embedding of `src/main.py` (a Streamlit single-page app: a fixed persona
registry, an in-memory conversation log, a prompt builder and a thin HTTP
inference client), together with proofs about the properties stated in the
design note.

Python-specific behaviour is modelled explicitly:
* `s.split(sep)` / `sep in s` / `s.strip()` are modelled character-wise over
  `List Char` (`pySplit`, `containsSub`, `pyStrip`);
* the slice `lst[-limit:]` for an `int` limit is `pyNegSlice`;
* truthiness of an optional string (`if agent:` / `if not self.api_token:`)
  is `pyTruthy`;
* the single `requests.post` call is abstracted by a `NetOutcome` value that
  records what the network interaction would yield (status, body text, parsed
  JSON or a raised exception); the rest of `query_model` is translated
  faithfully around it.
-/

/-- Whitespace stripped by Python `str.strip()` (the ASCII part; the prompt and
responses handled here contain no exotic Unicode whitespace). -/
def pyIsSpace (c : Char) : Bool :=
  c = ' ' || c = '\t' || c = '\n' || c = '\x0d' || c = '\x0b' || c = '\x0c'

/-- Python `s.strip()`: remove leading and trailing whitespace. -/
def pyStrip (l : List Char) : List Char :=
  ((l.dropWhile pyIsSpace).reverse.dropWhile pyIsSpace).reverse

/-- Index of the leftmost occurrence of `sep` in `l`, if any (the scan that
Python `str.find` / `str.split` perform). -/
def findOcc (sep l : List Char) : Option Nat :=
  if sep.isPrefixOf l then some 0
  else
    match l with
    | [] => none
    | _ :: t => (findOcc sep t).map (fun n => n + 1)

/-- Python `sep in s` as a substring test. -/
def containsSub (sep l : List Char) : Bool :=
  (findOcc sep l).isSome

/-- `sep` has no non-trivial border: no proper non-empty suffix of `sep` is
also one of its prefixes.  This rules out self-overlapping occurrences. -/
def borderFree (sep : List Char) : Prop :=
  ∀ k, k < sep.length → 0 < k → (sep.drop k).isPrefixOf sep = false

/-- Python `s.split(sep)` for a non-empty separator: cut at each leftmost
occurrence in turn. -/
def pySplit (sep : List Char) (hs : sep ≠ []) (l : List Char) : List (List Char) :=
  match hfo : findOcc sep l with
  | none => [l]
  | some i => l.take i :: pySplit sep hs (l.drop (i + sep.length))
termination_by l.length
decreasing_by
  simp only [List.length_drop]
  have hsep : 0 < sep.length := List.length_pos.mpr hs
  have hl : l ≠ [] := by
    intro h
    subst h
    cases hc : sep with
    | nil => exact hs hc
    | cons c cs =>
      rw [hc] at hfo
      simp [findOcc, List.isPrefixOf] at hfo
  have hlen : 0 < l.length := List.length_pos.mpr hl
  omega

/-! ### Persona registry (`AgentRole`, `Agent`, `CrewAIWorkspace._initialize_agents`) -/

inductive AgentRole where
  | tinker
  | tailor
  | soldier
  | spy
  | ceo
deriving DecidableEq

/-- The string value carried by each `AgentRole` enum member. -/
def AgentRole.value : AgentRole → String
  | AgentRole.tinker => "tinker"
  | AgentRole.tailor => "tailor"
  | AgentRole.soldier => "soldier"
  | AgentRole.spy => "spy"
  | AgentRole.ceo => "ceo"

structure Agent where
  name : String
  role : AgentRole
  description : String
  persona : String
  specialties : List String
  status : String := "idle"
deriving DecidableEq

def tinkerAgent : Agent :=
  ⟨"Tinker", AgentRole.tinker, "The Technical Innovator",
    "A brilliant engineer who loves to build, fix, and optimize systems. Always curious about how things work.",
    ["Code Generation", "System Architecture", "Problem Solving", "Technical Innovation"],
    "idle"⟩

def tailorAgent : Agent :=
  ⟨"Tailor", AgentRole.tailor, "The Content Creator",
    "A meticulous wordsmith who crafts perfect content, adapts messaging, and ensures quality.",
    ["Content Writing", "Documentation", "Communication", "Quality Assurance"],
    "idle"⟩

def soldierAgent : Agent :=
  ⟨"Soldier", AgentRole.soldier, "The Executor",
    "A disciplined professional who gets things done efficiently and follows through on commitments.",
    ["Project Management", "Execution", "Process Optimization", "Quality Control"],
    "idle"⟩

def spyAgent : Agent :=
  ⟨"Spy", AgentRole.spy, "The Intelligence Analyst",
    "A perceptive analyst who gathers information, identifies patterns, and provides strategic insights.",
    ["Research", "Analysis", "Intelligence Gathering", "Strategic Planning"],
    "idle"⟩

def mrSmileyAgent : Agent :=
  ⟨"Mr. Smiley", AgentRole.ceo, "The CEO Persona",
    "A charismatic leader who coordinates the team, makes strategic decisions, and ensures success.",
    ["Leadership", "Strategy", "Coordination", "Decision Making"],
    "idle"⟩

/-- The dictionary literal returned by `_initialize_agents`, in insertion order. -/
def initAgents : List (String × Agent) :=
  [("tinker", tinkerAgent), ("tailor", tailorAgent), ("soldier", soldierAgent),
    ("spy", spyAgent), ("mr_smiley", mrSmileyAgent)]

/-- Dictionary lookup `self.agents[key]`, `none` when the key is absent. -/
def agentsLookup (key : String) : Option Agent :=
  (initAgents.find? (fun kv => kv.1 == key)).map (fun kv => kv.2)

/-- The dictionary key list, in insertion order. -/
def agentKeys : List String := initAgents.map (fun kv => kv.1)

/-! ### JSON values and the inference client (`HuggingFaceAPI.query_model`) -/

/-- Parsed JSON values, as produced by `response.json()`. -/
inductive PyJson where
  | jstr (s : String)
  | jnum (n : Int)
  | jarr (items : List PyJson)
  | jobj (fields : List (String × PyJson))

/-- Python `dict.get(k)` on a parsed JSON object (keys are unique after
parsing, so the first match is the binding). -/
def pyGet (fields : List (String × PyJson)) (k : String) : Option PyJson :=
  (fields.find? (fun kv => kv.1 == k)).map (fun kv => kv.2)

/-- Python `repr` of a string: quotes plus escapes for the common characters. -/
def pyReprStr (s : String) : String :=
  let q : Char := if s.data.contains '\x27' && !(s.data.contains '"') then '"' else '\x27'
  String.singleton q ++
    String.join (s.data.map (fun c =>
      if c = '\\' then "\\\\"
      else if c = q then "\\" ++ String.singleton q
      else if c = '\n' then "\\n"
      else if c = '\x0d' then "\\r"
      else if c = '\t' then "\\t"
      else String.singleton c)) ++
    String.singleton q

mutual

/-- Python `repr` of a parsed JSON value. -/
def pyRepr : PyJson → String
  | PyJson.jstr s => pyReprStr s
  | PyJson.jnum n => toString n
  | PyJson.jarr items => "[" ++ pyReprItems items ++ "]"
  | PyJson.jobj fields => "\x7b" ++ pyReprFields fields ++ "\x7d"

/-- Comma-separated reprs of list items (`", ".join`). -/
def pyReprItems : List PyJson → String
  | [] => ""
  | [x] => pyRepr x
  | x :: y :: xs => pyRepr x ++ ", " ++ pyReprItems (y :: xs)

/-- Comma-separated `key: value` reprs of dict entries. -/
def pyReprFields : List (String × PyJson) → String
  | [] => ""
  | [(k, v)] => pyReprStr k ++ ": " ++ pyRepr v
  | (k, v) :: y :: xs => pyReprStr k ++ ": " ++ pyRepr v ++ ", " ++ pyReprFields (y :: xs)

end

/-- Python `str(...)` of a parsed JSON value. -/
def pyStr : PyJson → String
  | PyJson.jstr s => s
  | v => pyRepr v

/-- The type name Python reports for a JSON value. -/
def pyTypeName : PyJson → String
  | PyJson.jstr _ => "str"
  | PyJson.jnum _ => "int"
  | PyJson.jarr _ => "list"
  | PyJson.jobj _ => "dict"

/-- `str(e)` of the `AttributeError` raised by `result[0].get` when
`result[0]` is not a dict. -/
def attrErrGet (tyName : String) : String :=
  "\x27" ++ tyName ++ "\x27 object has no attribute \x27get\x27"

/-- Truthiness of `self.api_token` / `agent`: `None` and `""` are falsy. -/
def pyTruthy : Option String → Bool
  | none => false
  | some s => !(s == "")

/-- The message returned when no Hugging Face API token is configured. -/
def missingTokenMsg : String :=
  "⚠️ Hugging Face API token not configured. Please add your token to continue."

/-- What the single `requests.post` interaction would yield: either an HTTP
response (with status code, body text, and the result of `response.json()`,
which may itself raise) or a raised transport exception with its `str(e)`. -/
inductive NetOutcome where
  | response (status : Nat) (text : String) (jsonRes : Except String PyJson)
  | raised (msg : String)

/-- The HTTP-200 branch of `query_model`: `Sum.inl` is the returned value,
`Sum.inr` the message of an exception raised while accessing the result
(caught by the surrounding `except`). -/
def respText200 : PyJson → Sum PyJson String
  | PyJson.jarr (PyJson.jobj fields :: _) =>
    Sum.inl ((pyGet fields "generated_text").getD (PyJson.jstr "No response generated"))
  | PyJson.jarr (x :: _) => Sum.inr (attrErrGet (pyTypeName x))
  | other => Sum.inl (PyJson.jstr (pyStr other))

/-- Return value of `query_model` paired with whether `requests.post` ran. -/
structure QueryStep where
  result : PyJson
  networkCalled : Bool

/-- `HuggingFaceAPI.query_model`.  The URL/payload construction and the
network side effect are abstracted into `net : NetOutcome`; everything else
follows the source line by line.  Python is dynamically typed, so the value
returned from `result[0].get(...)` is kept as a `PyJson` (string results are
`PyJson.jstr`). -/
def queryModel (apiToken : Option String) (model_name prompt : String)
    (max_length : Nat) (net : NetOutcome) : QueryStep :=
  if !(pyTruthy apiToken) then ⟨PyJson.jstr missingTokenMsg, false⟩
  else
    match net with
    | NetOutcome.raised e => ⟨PyJson.jstr ("Error: " ++ e), true⟩
    | NetOutcome.response status text jsonRes =>
      if status == 200 then
        match jsonRes with
        | Except.error e => ⟨PyJson.jstr ("Error: " ++ e), true⟩
        | Except.ok j =>
          match respText200 j with
          | Sum.inl v => ⟨v, true⟩
          | Sum.inr e => ⟨PyJson.jstr ("Error: " ++ e), true⟩
      else ⟨PyJson.jstr ("API Error: " ++ toString status ++ " - " ++ text), true⟩

/-! ### Session memory (`SessionMemory`) -/

/-- One entry of `session_memory['conversations']`. -/
structure Conversation where
  timestamp : String
  agent : String
  user_input : String
  response : String
deriving DecidableEq

/-- The `session_memory` dictionary.  `agent_states` and `project_context`
hold arbitrary JSON-like values; only `conversations` is touched by the
verified operations. -/
structure SessionState where
  conversations : List Conversation
  agent_states : List (String × PyJson)
  project_context : List (String × PyJson)
  created_at : String

/-- `SessionMemory.initialize` / the fresh state it installs. -/
def initMemory (now : String) : SessionState := ⟨[], [], [], now⟩

/-- `SessionMemory.add_conversation`: append one exchange. -/
def addConversation (st : SessionState) (now agent user_input response : String) :
    SessionState :=
  { st with conversations := st.conversations ++ [⟨now, agent, user_input, response⟩] }

/-- The Python slice `lst[-limit:]` for an `int` limit: the last `limit`
elements when `limit > 0`, the whole list when `limit = 0`, and `lst[k:]`
with `k = -limit` when `limit < 0`. -/
def pyNegSlice (limit : Int) (l : List α) : List α :=
  if 0 < limit then l.drop (l.length - limit.toNat)
  else l.drop (-limit).toNat

/-- `SessionMemory.get_conversation_history`: optionally filter by agent
(`if agent:` is false for `None` and for the empty string), then take the
slice `conversations[-limit:]`. -/
def getConversationHistory (agent : Option String) (limit : Int)
    (convs : List Conversation) : List Conversation :=
  pyNegSlice limit
    (match agent with
     | none => convs
     | some a => if a == "" then convs else convs.filter (fun c => c.agent == a))

/-- `SessionMemory.clear_memory`: reinstall a fresh state. -/
def clearMemory (now : String) : SessionState := ⟨[], [], [], now⟩

/-- The "Clear Chat" button in `main`: keep only exchanges of other agents. -/
def clearChat (selected_agent : String) (st : SessionState) : SessionState :=
  { st with conversations :=
      st.conversations.filter (fun c => !(c.agent == selected_agent)) }

/-! ### Prompt builder (`CrewAIWorkspace.get_agent_prompt`) and the response
clean-up step in `main` -/

/-- One `"User: ...\nYou: ...\n"` line of the inline context. -/
def contextLine (conv : Conversation) : String :=
  "User: " ++ conv.user_input ++ "\nYou: " ++ conv.response ++ "\n"

/-- The `context_str` accumulator: empty for an empty context, otherwise a
header plus the lines for `context[-2:]`. -/
def contextStr (context : List Conversation) : String :=
  if context.isEmpty then ""
  else "\n\nRecent conversation context:\n" ++
    String.join ((pyNegSlice 2 context).map contextLine)

/-- The f-string template of `get_agent_prompt`, for a given agent and
already-retrieved context. -/
def mkPrompt (agent : Agent) (context : List Conversation) (user_input : String) : String :=
  "You are " ++ agent.name ++ ", " ++ agent.description ++ ".\n\nYour persona: " ++
    agent.persona ++ "\n\nYour specialties: " ++
    String.intercalate ", " agent.specialties ++
    "\n\nInstructions: Respond as " ++ agent.name ++
    " would, staying in character. Be helpful, professional, and leverage your specialties. Keep responses concise but informative.\n\n" ++
    contextStr context ++ "\n\nCurrent user request: " ++ user_input ++ "\n\nResponse:"

/-- `CrewAIWorkspace.get_agent_prompt`: look up the agent (`none` models the
`KeyError` of `self.agents[agent_key]`), retrieve the last 3 exchanges for
that agent, and apply the template. -/
def getAgentPrompt (convs : List Conversation) (agent_key user_input : String) :
    Option String :=
  (agentsLookup agent_key).map (fun agent =>
    mkPrompt agent (getConversationHistory (some agent_key) 3 convs) user_input)

/-- The literal the clean-up step in `main` splits on. -/
def respMarker : String := "Response:"

/-- The clean-up in `main`:
`if "Response:" in response: response = response.split("Response:")[-1].strip()`,
character-wise. -/
def pyCleanup (l : List Char) : List Char :=
  if containsSub respMarker.data l then
    pyStrip ((pySplit respMarker.data (by decide) l).getLastD l)
  else l

/-- The same clean-up at the `String` level. -/
def cleanResponse (s : String) : String := String.mk (pyCleanup s.data)

/-- A small concrete conversation log, used by the witness theorems. -/
def demoLog : List Conversation :=
  [⟨"2024-01-01T10:00:00", "spy", "hello", "hi"⟩,
   ⟨"2024-01-01T10:05:00", "tinker", "build", "ok"⟩,
   ⟨"2024-01-01T10:10:00", "spy", "report", "done"⟩]

/-- A small concrete session state, used by the witness theorems. -/
def demoState : SessionState := ⟨demoLog, [], [], "2024-01-01T09:00:00"⟩

/-! ### Helper lemmas about the Python string model -/

theorem isPrefixOf_iff_ex {p l : List Char} : p.isPrefixOf l = true ↔ ∃ t, l = p ++ t := by
  induction p generalizing l with
  | nil => simp [List.isPrefixOf]
  | cons a as ih =>
    cases l with
    | nil => simp [List.isPrefixOf]
    | cons b bs =>
      simp only [List.isPrefixOf, Bool.and_eq_true, beq_iff_eq, ih, List.cons_append,
        List.cons.injEq]
      constructor
      · rintro ⟨rfl, t, rfl⟩; exact ⟨t, rfl, rfl⟩
      · rintro ⟨t, rfl, rfl⟩; exact ⟨rfl, t, rfl⟩

theorem self_isPrefixOf_append (p t : List Char) : p.isPrefixOf (p ++ t) = true :=
  isPrefixOf_iff_ex.mpr ⟨t, rfl⟩

theorem findOcc_matchAt {sep l : List Char} {i : Nat} (h : findOcc sep l = some i) :
    sep.isPrefixOf (l.drop i) = true := by
  induction l generalizing i with
  | nil =>
    unfold findOcc at h
    by_cases hp : sep.isPrefixOf [] = true
    · simp [hp] at h; subst h; simpa using hp
    · simp [hp] at h
  | cons c t ih =>
    unfold findOcc at h
    by_cases hp : sep.isPrefixOf (c :: t) = true
    · simp [hp] at h; subst h; simpa using hp
    · simp only [hp, if_neg, Bool.false_eq_true, if_false, Option.map_eq_some'] at h
      obtain ⟨j, hj, rfl⟩ := h
      simpa using ih hj

theorem findOcc_exists {sep l : List Char} {p : Nat}
    (h : sep.isPrefixOf (l.drop p) = true) : ∃ j, j ≤ p ∧ findOcc sep l = some j := by
  induction l generalizing p with
  | nil =>
    refine ⟨0, Nat.zero_le p, ?_⟩
    simp only [List.drop_nil] at h
    unfold findOcc
    simp [h]
  | cons c t ih =>
    by_cases hp : sep.isPrefixOf (c :: t) = true
    · refine ⟨0, Nat.zero_le p, ?_⟩
      unfold findOcc
      simp [hp]
    · cases p with
      | zero => simp only [List.drop_zero] at h; exact absurd h hp
      | succ q =>
        simp only [List.drop_succ_cons] at h
        obtain ⟨j, hjq, hj⟩ := ih h
        refine ⟨j + 1, Nat.succ_le_succ hjq, ?_⟩
        unfold findOcc
        simp [hp, hj]

theorem pySplit_eq_none {sep l : List Char} (hs : sep ≠ []) (h : findOcc sep l = none) :
    pySplit sep hs l = [l] := by
  unfold pySplit
  split
  · rfl
  · rename_i i heq; rw [h] at heq; cases heq

theorem pySplit_eq_some {sep l : List Char} {i : Nat} (hs : sep ≠ [])
    (h : findOcc sep l = some i) :
    pySplit sep hs l = l.take i :: pySplit sep hs (l.drop (i + sep.length)) := by
  conv_lhs => rw [pySplit]
  split
  · rename_i heq; rw [h] at heq; cases heq
  · rename_i j heq; rw [h] at heq; cases heq; rfl

theorem pySplit_tail_getLastD {sep b : List Char} (hs : sep ≠ []) (BF : borderFree sep)
    (hb : findOcc sep b = none) :
    ∀ (a d : List Char), (pySplit sep hs (a ++ (sep ++ b))).getLastD d = b := by
  have main : ∀ n (a d : List Char), a.length = n →
      (pySplit sep hs (a ++ (sep ++ b))).getLastD d = b := by
    intro n
    induction n using Nat.strong_induction_on with
    | _ n ih =>
      intro a d hlen
      have hsl : 0 < sep.length := List.length_pos.mpr hs
      have hocc : sep.isPrefixOf ((a ++ (sep ++ b)).drop a.length) = true := by
        rw [List.drop_left]
        exact self_isPrefixOf_append sep b
      obtain ⟨i, hile, hfo⟩ := findOcc_exists hocc
      rw [pySplit_eq_some hs hfo, List.getLastD_cons]
      by_cases h1 : i + sep.length ≤ a.length
      · have hdrop : (a ++ (sep ++ b)).drop (i + sep.length) =
            a.drop (i + sep.length) ++ (sep ++ b) := by
          rw [List.drop_append_eq_append_drop, Nat.sub_eq_zero_of_le h1, List.drop_zero]
        rw [hdrop]
        exact ih (a.drop (i + sep.length)).length
          (by rw [List.length_drop]; omega) _ _ rfl
      · push_neg at h1
        by_cases h2 : i = a.length
        · subst h2
          have hdrop : (a ++ (sep ++ b)).drop (a.length + sep.length) = b := by
            rw [List.drop_append_eq_append_drop,
              List.drop_eq_nil_of_le (by omega : a.length ≤ a.length + sep.length),
              List.nil_append, List.drop_append_eq_append_drop,
              List.drop_eq_nil_of_le
                (by omega : sep.length ≤ a.length + sep.length - a.length),
              List.nil_append]
            have h3 : a.length + sep.length - a.length - sep.length = 0 := by omega
            rw [h3, List.drop_zero]
          rw [hdrop, pySplit_eq_none hs hb]
          rfl
        · exfalso
          have hi : i < a.length := by omega
          have hpre := findOcc_matchAt hfo
          have hdropi : (a ++ (sep ++ b)).drop i = a.drop i ++ (sep ++ b) := by
            rw [List.drop_append_eq_append_drop, Nat.sub_eq_zero_of_le (le_of_lt hi),
              List.drop_zero]
          rw [hdropi] at hpre
          obtain ⟨t, ht⟩ := isPrefixOf_iff_ex.mp hpre
          have hk0 : 0 < a.length - i := by omega
          have hks : a.length - i < sep.length := by omega
          have hlen_ai : (a.drop i).length = a.length - i := by
            rw [List.length_drop]
          have E2 : sep ++ b = sep.drop (a.length - i) ++ t := by
            have hE := congrArg (List.drop (a.length - i)) ht
            rw [List.drop_append_eq_append_drop, hlen_ai,
              List.drop_eq_nil_of_le (le_of_eq hlen_ai), List.nil_append, Nat.sub_self,
              List.drop_zero] at hE
            rw [List.drop_append_eq_append_drop,
              Nat.sub_eq_zero_of_le (le_of_lt hks), List.drop_zero] at hE
            exact hE
          have E3 : sep.take (sep.length - (a.length - i)) = sep.drop (a.length - i) := by
            have hE := congrArg (List.take (sep.length - (a.length - i))) E2
            rw [List.take_append_eq_append_take,
              Nat.sub_eq_zero_of_le
                (by omega : sep.length - (a.length - i) ≤ sep.length),
              List.take_zero, List.append_nil] at hE
            rw [List.take_append_eq_append_take,
              List.take_of_length_le
                (by rw [List.length_drop] :
                  (sep.drop (a.length - i)).length ≤ sep.length - (a.length - i))] at hE
            rw [List.length_drop, Nat.sub_self, List.take_zero, List.append_nil] at hE
            exact hE
          have hbord : (sep.drop (a.length - i)).isPrefixOf sep = true := by
            refine isPrefixOf_iff_ex.mpr ⟨sep.drop (sep.length - (a.length - i)), ?_⟩
            conv_lhs => rw [← List.take_append_drop (sep.length - (a.length - i)) sep]
            rw [E3]
          have hBF := BF (a.length - i) hks hk0
          rw [hBF] at hbord
          cases hbord
  intro a d
  exact main a.length a d rfl

theorem findOcc_isSome_cons {sep l : List Char} (c : Char)
    (h : (findOcc sep l).isSome = true) : (findOcc sep (c :: l)).isSome = true := by
  unfold findOcc
  by_cases hp : sep.isPrefixOf (c :: l) = true
  · simp [hp]
  · cases hfo : findOcc sep l with
    | none => rw [hfo] at h; cases h
    | some i => simp [hp, hfo]

theorem containsSub_append_right {sep t : List Char} (h : containsSub sep t = true)
    (s : List Char) : containsSub sep (s ++ t) = true := by
  induction s with
  | nil => simpa using h
  | cons c cs ih => exact findOcc_isSome_cons c ih

theorem containsSub_self_append (sep t : List Char) : containsSub sep (sep ++ t) = true := by
  unfold containsSub findOcc
  simp [self_isPrefixOf_append]

theorem containsSub_refl (p : List Char) : containsSub p p = true := by
  have h := containsSub_self_append p []
  rwa [List.append_nil] at h

theorem respMarker_borderFree : borderFree respMarker.data := by
  unfold borderFree
  decide

theorem respMarker_data_ne_nil : respMarker.data ≠ [] := by decide

theorem pyCleanup_strip (pre b : List Char)
    (hb : containsSub respMarker.data b = false) :
    pyCleanup (pre ++ (respMarker.data ++ b)) = pyStrip b := by
  have hc : containsSub respMarker.data (pre ++ (respMarker.data ++ b)) = true :=
    containsSub_append_right (containsSub_self_append _ _) pre
  have hbn : findOcc respMarker.data b = none := by
    cases hfo : findOcc respMarker.data b with
    | none => rfl
    | some i => unfold containsSub at hb; rw [hfo] at hb; cases hb
  unfold pyCleanup
  rw [if_pos hc]
  exact congrArg pyStrip (pySplit_tail_getLastD _ respMarker_borderFree hbn pre _)

theorem data_ends_marker (Y : String) :
    ∃ pre, (Y ++ "\n\nResponse:").data = pre ++ respMarker.data := by
  refine ⟨Y.data ++ ('\n' :: '\n' :: []), ?_⟩
  rw [String.data_append, List.append_assoc]
  congr 1

theorem mkPrompt_ends_marker (agent : Agent) (ctx : List Conversation) (input : String) :
    ∃ pre, (mkPrompt agent ctx input).data = pre ++ respMarker.data := by
  unfold mkPrompt
  exact data_ends_marker _

theorem pyNegSlice_one_append (l : List α) (x : α) : pyNegSlice 1 (l ++ [x]) = [x] := by
  unfold pyNegSlice
  rw [if_pos (by norm_num : (0:Int) < 1)]
  simp [List.length_append, List.drop_left]

theorem count_filter_agent_ne (p : String) (c : Conversation) (hc : c.agent ≠ p)
    (l : List Conversation) :
    (l.filter (fun x => !(x.agent == p))).count c = l.count c := by
  induction l with
  | nil => rfl
  | cons d t ih =>
    by_cases hd : (d.agent == p) = true
    · have hdc : (d == c) = false := by
        refine beq_eq_false_iff_ne.mpr ?_
        intro hEq
        exact hc (hEq ▸ beq_iff_eq.mp hd)
      simp [List.filter_cons, hd, List.count_cons, hdc, ih]
    · simp [List.filter_cons, hd, List.count_cons, ih]

theorem count_filter_agent_eq (p : String) (c : Conversation) (hc : c.agent = p)
    (l : List Conversation) :
    (l.filter (fun x => !(x.agent == p))).count c = 0 := by
  refine List.count_eq_zero.mpr ?_
  intro hmem
  have h2 := (List.mem_filter.mp hmem).2
  simp [hc] at h2

/-- C4: with no API token configured, `query_model` returns the
missing-credential message as a plain string and performs no network call,
whatever the network interaction would have yielded. -/
theorem query_missing_token (model_name prompt : String) (max_length : Nat)
    (net : NetOutcome) :
    (queryModel none model_name prompt max_length net).result =
      PyJson.jstr missingTokenMsg ∧
    (queryModel none model_name prompt max_length net).networkCalled = false :=
  ⟨rfl, rfl⟩

/-- C9: the registry key set is exactly tinker/tailor/soldier/spy/mr_smiley,
and `tinker` maps to the display name `Tinker`. -/
theorem registry_keys_scenario :
    agentKeys = ["tinker", "tailor", "soldier", "spy", "mr_smiley"] ∧
    (agentsLookup "tinker").map Agent.name = some "Tinker" :=
  ⟨rfl, rfl⟩

/-- C5: appending an exchange and then asking for the same persona's history
with limit 1 returns exactly the just-appended exchange. -/
theorem append_then_history_one (st : SessionState) (now a u r : String) :
    getConversationHistory (some a) 1 (addConversation st now a u r).conversations =
      [⟨now, a, u, r⟩] := by
  show getConversationHistory (some a) 1
      (st.conversations ++ [⟨now, a, u, r⟩]) = [⟨now, a, u, r⟩]
  simp only [getConversationHistory]
  cases h : (a == "") with
  | true =>
    rw [if_pos rfl]
    exact pyNegSlice_one_append _ _
  | false =>
    rw [if_neg (by simp)]
    rw [List.filter_append]
    have hx : (List.filter (fun c => c.agent == a) [⟨now, a, u, r⟩]) =
        [(⟨now, a, u, r⟩ : Conversation)] := by
      simp [List.filter_cons]
    rw [hx]
    exact pyNegSlice_one_append _ _

/-- C1 (amended): for an agent key (a nonempty string) and a positive limit N,
`get_conversation_history` returns at most N entries, all belonging to that
agent, and the result is a suffix of the chronologically ordered filtered log
(so chronological order is preserved with the most recent entry last).
For N = 0 the Python slice `conversations[-0:]` returns the entire filtered
list, see the counterexample. -/
theorem history_bounded_ordered (convs : List Conversation) (a : String) (N : Int)
    (ha : a ≠ "") (hN : 1 ≤ N) :
    (getConversationHistory (some a) N convs).length ≤ N.toNat ∧
    (∀ c ∈ getConversationHistory (some a) N convs, c.agent = a) ∧
    getConversationHistory (some a) N convs <:+ convs.filter (fun c => c.agent == a) := by
  have hbeq : (a == "") = false := beq_eq_false_iff_ne.mpr ha
  simp only [getConversationHistory, hbeq, Bool.false_eq_true, if_false]
  unfold pyNegSlice
  rw [if_pos (by omega : (0:Int) < N)]
  refine ⟨?_, ?_, ?_⟩
  · rw [List.length_drop]; omega
  · intro c hc
    have hmem : c ∈ convs.filter (fun c => c.agent == a) :=
      List.drop_subset _ _ hc
    exact beq_iff_eq.mp (List.mem_filter.mp hmem).2
  · exact List.drop_suffix _ _

/-- C1 counterexample: `get_conversation_history` with limit 0 on a
single-entry log returns that entry (the slice `[-0:]` is the whole list),
so the result is not bounded by the limit. -/
theorem history_limit_zero_counterexample :
    ¬ (getConversationHistory (some "spy") 0 demoLog).length ≤ (0 : Int).toNat := by
  decide

/-- C6: the Clear Chat filter removes exactly the selected agent's exchanges
(order and multiplicity of all other exchanges preserved), and `clear_memory`
leaves the conversation log empty. -/
theorem clear_chat_and_clear_memory (st : SessionState) (p : String) :
    ((clearChat p st).conversations).Sublist st.conversations ∧
    (∀ c ∈ (clearChat p st).conversations, c.agent ≠ p) ∧
    (∀ c : Conversation, c.agent ≠ p →
      (clearChat p st).conversations.count c = st.conversations.count c) ∧
    (∀ c : Conversation, c.agent = p → (clearChat p st).conversations.count c = 0) ∧
    (∀ now, (clearMemory now).conversations = []) := by
  refine ⟨List.filter_sublist _, ?_, ?_, ?_, fun now => rfl⟩
  · intro c hc
    have h2 := (List.mem_filter.mp hc).2
    simpa using h2
  · intro c hc
    exact count_filter_agent_ne p c hc st.conversations
  · intro c hc
    exact count_filter_agent_eq p c hc st.conversations

/-- C2 counterexample: the registry maps the key `mr_smiley` to a descriptor
whose role enum value is `ceo`, not `mr_smiley`. -/
theorem registry_key_field_counterexample :
    ¬ ∀ (k : String) (a : Agent), agentsLookup k = some a → a.role.value = k := by
  intro hall
  have h := hall "mr_smiley" mrSmileyAgent rfl
  exact absurd h (by decide)

/-- C2 (amended): for every key in the registry, the looked-up descriptor's
role value equals the key, except for `mr_smiley`, whose descriptor carries
the role value `ceo`. -/
theorem registry_role_value (k : String) (a : Agent) (h : agentsLookup k = some a) :
    a.role.value = if k = "mr_smiley" then "ceo" else k := by
  by_cases h1 : k = "tinker"
  · subst h1
    have hx : a = tinkerAgent := by
      have he : agentsLookup "tinker" = some tinkerAgent := rfl
      rw [he] at h
      exact (Option.some.inj h).symm
    subst hx
    decide
  by_cases h2 : k = "tailor"
  · subst h2
    have hx : a = tailorAgent := by
      have he : agentsLookup "tailor" = some tailorAgent := rfl
      rw [he] at h
      exact (Option.some.inj h).symm
    subst hx
    decide
  by_cases h3 : k = "soldier"
  · subst h3
    have hx : a = soldierAgent := by
      have he : agentsLookup "soldier" = some soldierAgent := rfl
      rw [he] at h
      exact (Option.some.inj h).symm
    subst hx
    decide
  by_cases h4 : k = "spy"
  · subst h4
    have hx : a = spyAgent := by
      have he : agentsLookup "spy" = some spyAgent := rfl
      rw [he] at h
      exact (Option.some.inj h).symm
    subst hx
    decide
  by_cases h5 : k = "mr_smiley"
  · subst h5
    have hx : a = mrSmileyAgent := by
      have he : agentsLookup "mr_smiley" = some mrSmileyAgent := rfl
      rw [he] at h
      exact (Option.some.inj h).symm
    subst hx
    decide
  · exfalso
    have e1 : ("tinker" == k) = false := beq_eq_false_iff_ne.mpr (Ne.symm h1)
    have e2 : ("tailor" == k) = false := beq_eq_false_iff_ne.mpr (Ne.symm h2)
    have e3 : ("soldier" == k) = false := beq_eq_false_iff_ne.mpr (Ne.symm h3)
    have e4 : ("spy" == k) = false := beq_eq_false_iff_ne.mpr (Ne.symm h4)
    have e5 : ("mr_smiley" == k) = false := beq_eq_false_iff_ne.mpr (Ne.symm h5)
    have hnone : agentsLookup k = none := by
      unfold agentsLookup initAgents
      simp [List.find?, e1, e2, e3, e4, e5]
    rw [hnone] at h
    cases h

/-- C7: for a key present in the registry, `get_agent_prompt` yields the
template applied to the looked-up agent, and that prompt contains both the
agent's display name and the literal user input as substrings. -/
theorem prompt_contains_name_and_input (k : String) (agent : Agent)
    (convs : List Conversation) (input : String) (h : agentsLookup k = some agent) :
    getAgentPrompt convs k input =
      some (mkPrompt agent (getConversationHistory (some k) 3 convs) input) ∧
    containsSub agent.name.data
      (mkPrompt agent (getConversationHistory (some k) 3 convs) input).data = true ∧
    containsSub input.data
      (mkPrompt agent (getConversationHistory (some k) 3 convs) input).data = true := by
  refine ⟨by simp [getAgentPrompt, h], ?_, ?_⟩
  · unfold mkPrompt
    simp only [String.data_append, List.append_assoc]
    exact containsSub_append_right (containsSub_self_append _ _) _
  · unfold mkPrompt
    simp only [String.data_append, List.append_assoc]
    repeat
      first
      | exact containsSub_self_append _ _
      | apply containsSub_append_right

/-- C8: with a configured token, a non-200 response yields an error string
embedding the decimal status code, and a raised transport exception yields an
error string embedding the exception text. -/
theorem query_error_strings (tok : Option String) (model_name prompt : String)
    (max_length : Nat) (htok : pyTruthy tok = true) :
    (∀ (status : Nat) (text : String) (jr : Except String PyJson), status ≠ 200 →
      ∃ msg, (queryModel tok model_name prompt max_length
          (NetOutcome.response status text jr)).result = PyJson.jstr msg ∧
        containsSub (toString status).data msg.data = true) ∧
    (∀ e, ∃ msg, (queryModel tok model_name prompt max_length
        (NetOutcome.raised e)).result = PyJson.jstr msg ∧
      containsSub e.data msg.data = true) := by
  constructor
  · intro status text jr hst
    refine ⟨"API Error: " ++ toString status ++ " - " ++ text, ?_, ?_⟩
    · have hb : (status == 200) = false := by simpa using hst
      simp [queryModel, htok, hb]
    · simp only [String.data_append, List.append_assoc]
      exact containsSub_append_right (containsSub_self_append _ _) _
  · intro e
    refine ⟨"Error: " ++ e, ?_, ?_⟩
    · simp [queryModel, htok]
    · simp only [String.data_append]
      exact containsSub_append_right (containsSub_refl _) _

/-- C3: on an HTTP 200 response, the 200-branch of `query_model` handles the
array-of-objects shape (returning the `generated_text` value when present and
the default message when absent) and the object shape (returning its `str`);
and the clean-up step in `main` removes an echoed prompt prefix: whenever the
model output is the prompt followed by a completion containing no further
`Response:` marker, the stored text is exactly the stripped completion. -/
theorem query_200_parse_extract_strip :
    (∀ (fields : List (String × PyJson)) (rest : List PyJson) (v : PyJson),
      pyGet fields "generated_text" = some v →
      respText200 (PyJson.jarr (PyJson.jobj fields :: rest)) = Sum.inl v) ∧
    (∀ (fields : List (String × PyJson)) (rest : List PyJson),
      pyGet fields "generated_text" = none →
      respText200 (PyJson.jarr (PyJson.jobj fields :: rest)) =
        Sum.inl (PyJson.jstr "No response generated")) ∧
    (∀ fields : List (String × PyJson),
      respText200 (PyJson.jobj fields) =
        Sum.inl (PyJson.jstr (pyStr (PyJson.jobj fields)))) ∧
    (∀ (agent : Agent) (context : List Conversation) (input : String)
        (completion : List Char),
      containsSub respMarker.data completion = false →
      pyCleanup ((mkPrompt agent context input).data ++ completion) =
        pyStrip completion) := by
  refine ⟨?_, ?_, fun fields => rfl, ?_⟩
  · intro fields rest v h
    simp [respText200, h]
  · intro fields rest h
    simp [respText200, h]
  · intro agent context input completion hsub
    obtain ⟨pre, hpre⟩ := mkPrompt_ends_marker agent context input
    rw [hpre, List.append_assoc]
    exact pyCleanup_strip pre completion hsub

/-- C10 counterexample: a 200 response whose JSON is
`[{"generated_text": 42}]` makes `query_model` return the integer 42, which
is not a string. -/
theorem query_nonstring_result_counterexample :
    (queryModel (some "token") "gpt2" "prompt" 150
        (NetOutcome.response 200 "ok"
          (Except.ok (PyJson.jarr [PyJson.jobj [("generated_text", PyJson.jnum 42)]])))).result
      = PyJson.jnum 42 ∧
    ∀ s, PyJson.jnum 42 ≠ PyJson.jstr s := by
  constructor
  · rfl
  · intro s h
    cases h

/-- C10 (amended): `query_model` is total — every network outcome, including
raised exceptions and JSON-access failures, produces a result value rather
than a propagated exception — and that result is a string in every case
except when a 200 response is a JSON array whose first element is an object
mapping `generated_text` to a non-string value, which is returned as-is. -/
theorem query_total_result (tok : Option String) (model_name prompt : String)
    (max_length : Nat) (net : NetOutcome) :
    (∃ s, (queryModel tok model_name prompt max_length net).result = PyJson.jstr s) ∨
    (∃ (text : String) (fields : List (String × PyJson)) (rest : List PyJson)
        (v : PyJson),
      net = NetOutcome.response 200 text
          (Except.ok (PyJson.jarr (PyJson.jobj fields :: rest))) ∧
      pyGet fields "generated_text" = some v ∧ (∀ s, v ≠ PyJson.jstr s) ∧
      (queryModel tok model_name prompt max_length net).result = v) := by
  cases htok : pyTruthy tok with
  | false => exact Or.inl ⟨missingTokenMsg, by simp [queryModel, htok]⟩
  | true =>
    cases net with
    | raised e => exact Or.inl ⟨"Error: " ++ e, by simp [queryModel, htok]⟩
    | response status text jr =>
      by_cases hst : (status == 200) = true
      · have h200 : status = 200 := by simpa using hst
        subst h200
        cases jr with
        | error e => exact Or.inl ⟨"Error: " ++ e, by simp [queryModel, htok]⟩
        | ok j =>
          cases j with
          | jstr s =>
            exact Or.inl ⟨s, by simp [queryModel, respText200, htok, pyStr]⟩
          | jnum n =>
            exact Or.inl ⟨pyStr (PyJson.jnum n), by simp [queryModel, respText200, htok]⟩
          | jobj fields =>
            exact Or.inl ⟨pyStr (PyJson.jobj fields),
              by simp [queryModel, respText200, htok]⟩
          | jarr items =>
            cases items with
            | nil =>
              exact Or.inl ⟨pyStr (PyJson.jarr []),
                by simp [queryModel, respText200, htok]⟩
            | cons x rest =>
              cases x with
              | jstr s =>
                exact Or.inl ⟨"Error: " ++ attrErrGet "str",
                  by simp [queryModel, respText200, htok, pyTypeName]⟩
              | jnum n =>
                exact Or.inl ⟨"Error: " ++ attrErrGet "int",
                  by simp [queryModel, respText200, htok, pyTypeName]⟩
              | jarr l =>
                exact Or.inl ⟨"Error: " ++ attrErrGet "list",
                  by simp [queryModel, respText200, htok, pyTypeName]⟩
              | jobj fields =>
                cases hg : pyGet fields "generated_text" with
                | none =>
                  exact Or.inl ⟨"No response generated",
                    by simp [queryModel, respText200, htok, hg]⟩
                | some v =>
                  cases v with
                  | jstr s =>
                    exact Or.inl ⟨s, by simp [queryModel, respText200, htok, hg]⟩
                  | jnum n =>
                    refine Or.inr ⟨text, fields, rest, PyJson.jnum n, rfl, hg,
                      fun s h => PyJson.noConfusion h, ?_⟩
                    simp [queryModel, respText200, htok, hg]
                  | jarr l =>
                    refine Or.inr ⟨text, fields, rest, PyJson.jarr l, rfl, hg,
                      fun s h => PyJson.noConfusion h, ?_⟩
                    simp [queryModel, respText200, htok, hg]
                  | jobj l =>
                    refine Or.inr ⟨text, fields, rest, PyJson.jobj l, rfl, hg,
                      fun s h => PyJson.noConfusion h, ?_⟩
                    simp [queryModel, respText200, htok, hg]
      · exact Or.inl ⟨"API Error: " ++ toString status ++ " - " ++ text,
          by simp [queryModel, htok, hst]⟩

/-- C1 witness: the bound/membership/suffix property instantiated on a
concrete log, agent `spy` and limit 2. -/
theorem history_bounded_ordered_witness :
    ("spy" : String) ≠ "" ∧ (1 : Int) ≤ 2 ∧
    ((getConversationHistory (some "spy") 2 demoLog).length ≤ (2 : Int).toNat ∧
      (∀ c ∈ getConversationHistory (some "spy") 2 demoLog, c.agent = "spy") ∧
      getConversationHistory (some "spy") 2 demoLog <:+
        demoLog.filter (fun c => c.agent == "spy")) :=
  ⟨by decide, by decide, history_bounded_ordered demoLog "spy" 2 (by decide) (by decide)⟩

/-- C2 witness: the amended key/role-value relation instantiated at
`mr_smiley` and at `tinker`. -/
theorem registry_role_value_witness :
    agentsLookup "mr_smiley" = some mrSmileyAgent ∧
    mrSmileyAgent.role.value =
      (if "mr_smiley" = "mr_smiley" then "ceo" else "mr_smiley") ∧
    agentsLookup "tinker" = some tinkerAgent ∧
    tinkerAgent.role.value = (if "tinker" = "mr_smiley" then "ceo" else "tinker") :=
  ⟨rfl, registry_role_value "mr_smiley" mrSmileyAgent rfl, rfl,
    registry_role_value "tinker" tinkerAgent rfl⟩

/-- C3 witness: extraction of a concrete `generated_text`, and prompt-prefix
stripping on a concrete completion. -/
theorem query_200_parse_extract_strip_witness :
    pyGet [("generated_text", PyJson.jstr "hello")] "generated_text" =
      some (PyJson.jstr "hello") ∧
    respText200 (PyJson.jarr [PyJson.jobj [("generated_text", PyJson.jstr "hello")]]) =
      Sum.inl (PyJson.jstr "hello") ∧
    containsSub respMarker.data (" all good".data) = false ∧
    pyCleanup ((mkPrompt tinkerAgent [] "hi").data ++ (" all good".data)) =
      pyStrip (" all good".data) :=
  ⟨rfl,
    query_200_parse_extract_strip.1 [("generated_text", PyJson.jstr "hello")] [] _ rfl,
    by decide,
    query_200_parse_extract_strip.2.2.2 tinkerAgent [] "hi" (" all good".data)
      (by decide)⟩

/-- C6 witness: clearing `spy` on a concrete state preserves the `tinker`
entry's multiplicity and removes the `spy` entry. -/
theorem clear_chat_and_clear_memory_witness :
    (⟨"2024-01-01T10:05:00", "tinker", "build", "ok"⟩ : Conversation).agent ≠ "spy" ∧
    (clearChat "spy" demoState).conversations.count
        ⟨"2024-01-01T10:05:00", "tinker", "build", "ok"⟩ =
      demoState.conversations.count ⟨"2024-01-01T10:05:00", "tinker", "build", "ok"⟩ ∧
    (⟨"2024-01-01T10:00:00", "spy", "hello", "hi"⟩ : Conversation).agent = "spy" ∧
    (clearChat "spy" demoState).conversations.count
        ⟨"2024-01-01T10:00:00", "spy", "hello", "hi"⟩ = 0 :=
  ⟨by decide,
    (clear_chat_and_clear_memory demoState "spy").2.2.1 _ (by decide),
    by decide,
    (clear_chat_and_clear_memory demoState "spy").2.2.2.1 _ (by decide)⟩

/-- C7 witness: the prompt built for `tinker` on an empty log contains the
display name and the user text. -/
theorem prompt_contains_name_and_input_witness :
    agentsLookup "tinker" = some tinkerAgent ∧
    (getAgentPrompt [] "tinker" "hello" =
        some (mkPrompt tinkerAgent (getConversationHistory (some "tinker") 3 []) "hello") ∧
      containsSub tinkerAgent.name.data
        (mkPrompt tinkerAgent (getConversationHistory (some "tinker") 3 []) "hello").data =
        true ∧
      containsSub ("hello" : String).data
        (mkPrompt tinkerAgent (getConversationHistory (some "tinker") 3 []) "hello").data =
        true) :=
  ⟨rfl, prompt_contains_name_and_input "tinker" tinkerAgent [] "hello" rfl⟩

/-- C8 witness: a 404 and a raised timeout produce error strings embedding
the status code and the exception text respectively. -/
theorem query_error_strings_witness :
    pyTruthy (some "tok") = true ∧
    (∃ msg, (queryModel (some "tok") "gpt2" "p" 150
          (NetOutcome.response 404 "not found" (Except.error "no json"))).result =
        PyJson.jstr msg ∧ containsSub (toString 404).data msg.data = true) ∧
    (∃ msg, (queryModel (some "tok") "gpt2" "p" 150
          (NetOutcome.raised "timeout")).result = PyJson.jstr msg ∧
      containsSub ("timeout" : String).data msg.data = true) :=
  ⟨by decide,
    (query_error_strings (some "tok") "gpt2" "p" 150 (by decide)).1 404 "not found"
      (Except.error "no json") (by decide),
    (query_error_strings (some "tok") "gpt2" "p" 150 (by decide)).2 "timeout"⟩
